import Mathlib

/-!
Shallow embedding of `flomo2notion.py` (repository `notion-flomo`): the
content normalizer `_safe_md_and_text`, the per-memo reconciliation of
`Flomo2Notion.sync_to_notion`, the slug index construction, the pagination
loop, and the write paths `insert_memo` / `update_memo`.

External collaborators (the `markdownify` and `html2text` converters, the
flomo page API, the timestamp parser `time.strptime`/`time.mktime`) are
modelled as function parameters; destination writes are modelled as an
explicit trace of operations.
-/

set_option autoImplicit false

namespace Flomo2Notion

/-- A file attachment entry of a memo. Python iterates `memo.get("files")`
and guards each element with `isinstance(f, dict)`; entries that are not
dicts are therefore modelled by a dedicated constructor. A dict entry
carries the values of its optional keys `"type"` and `"url"`
(`none` = key absent or value `None`). -/
inductive FileEntry where
  | dict (ftype : Option String) (url : Option String)
  | nondict
  deriving DecidableEq, Repr

/-- A memo dict as fetched from the flomo API. Every field the code reads
with `memo.get(...)` is optional: `none` models an absent key (or a `None`
value where the code treats both alike). -/
structure Memo where
  slug : Option String
  content : Option String
  files : Option (List FileEntry)
  tags : Option (List String)
  pin : Option Int
  created_at : Option String
  updated_at : Option String
  source : Option String
  linked_count : Option Int
  deriving DecidableEq, Repr

/-- Values produced by the `notion_utils.get_*` constructors when building
a Notion property payload. The constructors are opaque collaborators, so
each is modelled as a distinct tag around its argument. -/
inductive PropValue where
  | title (s : String)
  | richText (s : String)
  | date (s : String)
  | select (s : String)
  | multiSelect (tags : List String)
  | number (n : Int)
  deriving DecidableEq, Repr

/-- A destination write operation issued by the orchestrator, in issue
order: page creation, markdown upload, property update, content clear. -/
inductive Op where
  | createPage (pageId : String) (props : List (String × PropValue))
  | uploadContent (pageId : String) (md : String)
  | updateProps (pageId : String) (props : List (String × PropValue))
  | clearContent (pageId : String)
  deriving DecidableEq, Repr

/-- Python exceptions that the embedded code can raise. -/
inductive PyErr where
  | typeError
  | keyError
  | valueError
  deriving DecidableEq, Repr

/-- Python truthiness of an optional string: `None` and `""` are falsy. -/
def pyTruthyStr : Option String → Bool
  | none => false
  | some s => s ≠ ""

/-- The list comprehension of `_safe_md_and_text`:
`[f.get("url") for f in files if isinstance(f, dict) and f.get("type") == "image" and f.get("url")]`. -/
def imgUrls (files : List FileEntry) : List String :=
  files.filterMap fun f =>
    match f with
    | .dict ftype url =>
        if ftype = some "image" then
          match url with
          | some u => if u = "" then none else some u
          | none => none
        else none
    | .nondict => none

/-- Applying an external string converter (`markdownify` or
`html2text.html2text`) to a possibly-`None` value: on `None` the library
raises, which is exactly what `_safe_md_and_text` exists to avoid. -/
def convertPy (f : String → String) : Option String → Except PyErr String
  | none => .error .typeError
  | some s => .ok (f s)

/-- Embedding of `_safe_md_and_text(memo)`. `mdF` and `htF` are the
external `markdownify` and `html2text.html2text` converters. -/
def safe_md_and_text (mdF htF : String → String) (memo : Memo) :
    Except PyErr (String × String) :=
  let content_html := memo.content
  if pyTruthyStr content_html then do
    let content_md ← convertPy mdF content_html
    let content_text ← convertPy htF content_html
    pure (content_md, content_text)
  else
    let files := memo.files.getD []
    let urls := imgUrls files
    let content_md := if urls.isEmpty then "" else String.intercalate "\n" urls
    .ok (content_md, content_md)

/-- Modelled from the spec: `truncate_string` from the repository's
`utils` module (not present under `src/`), §4.5: the title "is derived
from the plain-text excerpt truncated to a bounded length (stable
truncation rule, e.g. fixed character cap)". The cap is a parameter. -/
def truncate_string (cap : Nat) (s : String) : String :=
  s.take cap

/-- Modelled from the spec: `is_within_n_days` from the repository's
`utils` module (not present under `src/`), §4.2: eligible only if the
timestamp falls within `n` days of the current moment (boundary chosen
inclusive); malformed or unparsable timestamps are treated as
not-eligible rather than raising. `p` is the external timestamp parser
(string in source-local format to epoch seconds), `now` the current
moment in epoch seconds. -/
def is_within_n_days (p : String → Option Int) (now : Int)
    (ts : String) (n : Int) : Bool :=
  match p ts with
  | none => false
  | some t => now - t ≤ n * 86400

/-- The pair `_safe_md_and_text` returns, in total form: the `Except`
wrapper of `safe_md_and_text` is always `ok` (theorem
`safe_md_and_text_total` below), so the write paths are defined over
this form. -/
def safeMdText (mdF htF : String → String) (memo : Memo) : String × String :=
  if pyTruthyStr memo.content then
    (mdF (memo.content.getD ""), htF (memo.content.getD ""))
  else
    let urls := imgUrls (memo.files.getD [])
    let content_md := if urls.isEmpty then "" else String.intercalate "\n" urls
    (content_md, content_md)

/-- Embedding of `Flomo2Notion.insert_memo(memo)`. `newId` is the record
handle the destination returns from `pages.create`; the randomly chosen
cover and the fixed icon carry no data the sync logic reads back, so
they are not part of the trace. -/
def insert_memo (mdF htF : String → String) (cap : Nat) (memo : Memo)
    (newId : String) : List Op :=
  let r := safeMdText mdF htF memo
  let content_md := r.1
  let content_text := r.2
  let properties : List (String × PropValue) :=
    [("标题", .title (truncate_string cap content_text)),
     ("标签", .multiSelect (memo.tags.getD [])),
     ("是否置顶", .select (if memo.pin.getD 0 = 0 then "否" else "是")),
     ("slug", .richText (memo.slug.getD "")),
     ("创建时间", .date (memo.created_at.getD "")),
     ("更新时间", .date (memo.updated_at.getD "")),
     ("来源", .select (memo.source.getD "")),
     ("链接数量", .number (memo.linked_count.getD 0))]
  [Op.createPage newId properties, Op.uploadContent newId content_md]

/-- Embedding of `Flomo2Notion.update_memo(memo, page_id)`. The
destination's `pages.update` returns the handle of the record it
updated, so the subsequent clear and upload target `page_id` itself. -/
def update_memo (mdF htF : String → String) (cap : Nat) (memo : Memo)
    (page_id : String) : List Op :=
  let r := safeMdText mdF htF memo
  let content_md := r.1
  let content_text := r.2
  let properties : List (String × PropValue) :=
    [("标题", .title (truncate_string cap content_text)),
     ("更新时间", .date (memo.updated_at.getD "")),
     ("链接数量", .number (memo.linked_count.getD 0)),
     ("标签", .multiSelect (memo.tags.getD [])),
     ("是否置顶", .select (if memo.pin.getD 0 = 0 then "否" else "是"))]
  [Op.updateProps page_id properties, Op.clearContent page_id,
   Op.uploadContent page_id content_md]

/-- `slug = memo.get("slug")` followed by `slug in slug_map` /
`slug_map[slug]`: the map's keys are strings (only truthy extracted
slugs are inserted), so a missing slug key is never found. -/
def slugLookup (slug_map : String → Option String) :
    Option String → Option String
  | none => none
  | some s => slug_map s

/-- One iteration of the reconciliation loop of `sync_to_notion`
(lines 149-158): look the memo's slug up in the index; if found, skip
when not in full-update mode and not within the freshness window,
otherwise update; if not found, insert. -/
def syncMemoOps (mdF htF : String → String) (cap : Nat)
    (p : String → Option Int) (now : Int)
    (full_update : Bool) (interval_day : Int)
    (slug_map : String → Option String) (memo : Memo) (newId : String) :
    List Op :=
  match slugLookup slug_map memo.slug with
  | some page_id =>
      if !full_update && !is_within_n_days p now (memo.updated_at.getD "") interval_day then
        []
      else
        update_memo mdF htF cap memo page_id
  | none => insert_memo mdF htF cap memo newId

/-- Handles the destination assigns to records created during a run;
the n-th create of the run receives `freshId n`. -/
def freshId (n : Nat) : String :=
  "new" ++ toString n

/-- The reconciliation loop of `sync_to_notion` over the accumulated
memo list: the slug index is built once before the loop and never
updated while the loop runs, exactly as in the source. -/
def syncLoop (mdF htF : String → String) (cap : Nat)
    (p : String → Option Int) (now : Int)
    (full_update : Bool) (interval_day : Int)
    (slug_map : String → Option String) :
    List Memo → Nat → List Op
  | [], _ => []
  | memo :: rest, n =>
      syncMemoOps mdF htF cap p now full_update interval_day
          slug_map memo (freshId n) ++
        syncLoop mdF htF cap p now full_update interval_day
          slug_map rest (n + 1)

/-- A record of the destination collection as seen by the index builder:
its handle and the value `notion_utils.get_rich_text_from_result(r, "slug")`
extracts from it (`none` when the property is missing). -/
structure NRecord where
  id : String
  slug : Option String
  deriving DecidableEq, Repr

/-- Whether a record is indexed under the key `k`: its extracted slug is
exactly the non-empty string `k`. -/
def slugKeyIs (k : String) (r : NRecord) : Bool :=
  decide (r.slug = some k) && decide (k ≠ "")

/-- One iteration of the slug index construction: `key` is the extracted
slug of the record; `if key:` keeps only truthy keys, and the dict
assignment makes a later record overwrite an earlier one. -/
def slugStep (m : String → Option String) (r : NRecord) : String → Option String :=
  match r.slug with
  | some k => if k = "" then m else fun s => if s = k then some r.id else m s
  | none => m

/-- The slug index construction of `sync_to_notion` (lines 139-143):
scan the records in order, skip falsy extracted slugs, later records
overwrite earlier ones. -/
def buildSlugMap (recs : List NRecord) : String → Option String :=
  recs.foldl slugStep (fun _ => none)

/-- The records a trace of operations adds to the destination
collection: each `createPage` adds one record whose extractable slug is
the rich-text value written under the `slug` property. -/
def createdRecords (ops : List Op) : List NRecord :=
  ops.filterMap fun op =>
    match op with
    | .createPage pid props =>
        some { id := pid,
               slug :=
                 match props.lookup "slug" with
                 | some (.richText s) => some s
                 | _ => none }
    | _ => none

/-- Two successive runs of the reconciliation over the same memo list:
the first run starts from the destination records `dest`, the second
run rebuilds the slug index from `dest` plus the records the first run
created (updates never rewrite the slug property, and nothing is ever
deleted, so creates are the only index-relevant destination change).
Returns the operations of the second run. -/
def twoRunSecondOps (mdF htF : String → String) (cap : Nat)
    (p : String → Option Int) (now : Int)
    (full_update : Bool) (interval_day : Int)
    (dest : List NRecord) (memos : List Memo) : List Op :=
  let ops1 := syncLoop mdF htF cap p now full_update interval_day
                (buildSlugMap dest) memos 0
  let dest2 := dest ++ createdRecords ops1
  syncLoop mdF htF cap p now full_update interval_day
    (buildSlugMap dest2) memos 0

/-- The pagination loop of `sync_to_notion` (lines 125-135), with the
cursor threading made explicit. `g` is the external
`flomo_api.get_memo_list` (cursor to page), `p` the external
`strptime`/`mktime` composite for the format `%Y-%m-%d %H:%M:%S`
(failure = `ValueError`). The result records the `(cursor, page)` pairs
of the non-empty pages in fetch order and the cursor at which the empty
page ended the loop; `none` means the fuel ran out before the loop
terminated. Accessing `["updated_at"]` on the last memo raises
`KeyError` if the key is absent. -/
def fetchTrace (g : String → List Memo) (p : String → Option Int) :
    Nat → String → Option (Except PyErr (List (String × List Memo) × String))
  | 0, _ => none
  | fuel + 1, cursor =>
    match (g cursor).getLast? with
    | none => some (.ok ([], cursor))
    | some lastMemo =>
      match lastMemo.updated_at with
      | none => some (.error .keyError)
      | some ts =>
        match p ts with
        | none => some (.error .valueError)
        | some t =>
          (fetchTrace g p fuel (toString t)).map
            (Except.map (fun r => ((cursor, g cursor) :: r.1, r.2)))

/-- The accumulated `memo_list` of `sync_to_notion`: the pages fetched
from the initial cursor `"0"`, concatenated in fetch order. -/
def fetchAllMemos (g : String → List Memo) (p : String → Option Int)
    (fuel : Nat) : Option (Except PyErr (List Memo)) :=
  (fetchTrace g p fuel "0").map (Except.map (fun r => (r.1.map Prod.snd).flatten))

/-- Checks that a trace of `(cursor, page)` pairs is the cursor chain
the paginator is specified to follow from `c`: each entry used the
current cursor, fetched exactly `g` of it, the page is non-empty, and
the next cursor is the decimal rendering of the parsed `updated_at` of
the page's last memo; `cfin` is the cursor left when the chain ends. -/
def chainOk (g : String → List Memo) (p : String → Option Int) :
    String → List (String × List Memo) → String → Bool
  | c, [], cfin => cfin == c
  | c, (c0, pg) :: rest, cfin =>
    c0 == c && pg == g c && !pg.isEmpty &&
    match pg.getLast? with
    | none => false
    | some lastMemo =>
      match lastMemo.updated_at with
      | none => false
      | some ts =>
        match p ts with
        | none => false
        | some t => chainOk g p (toString t) rest cfin

/-- The slug identifier a create operation writes, if the operation is a
create: the rich-text value of its `slug` property. -/
def createSlug : Op → Option String
  | .createPage _ props =>
      match props.lookup "slug" with
      | some (.richText s) => some s
      | _ => none
  | _ => none

/-- How many creates of the trace carry the identifier `s`. -/
def countCreates (s : String) (ops : List Op) : Nat :=
  ops.countP fun op => createSlug op == some s

/-- A memo with no body and a mix of image, non-image, empty-url and
non-dict file entries, for concrete evaluation. -/
def mImgs : Memo :=
  { slug := none, content := none,
    files := some [.dict (some "image") (some "u1"), .nondict,
                   .dict (some "image") (some ""), .dict none (some "u2"),
                   .dict (some "image") (some "u3")],
    tags := none, pin := none, created_at := none, updated_at := none,
    source := none, linked_count := none }

/-- An ordinary memo with slug `"a"`, for concrete evaluation. -/
def mA : Memo :=
  { slug := some "a", content := some "x", files := none, tags := some ["t"],
    pin := some 0, created_at := some "2024-01-01 00:00:00",
    updated_at := some "2024-01-01 00:00:00", source := some "flomo",
    linked_count := some 0 }

/-- A memo whose dict has no `slug` key at all. -/
def mNoSlug : Memo :=
  { slug := none, content := some "x", files := none, tags := none,
    pin := none, created_at := none, updated_at := some "2024-01-01 00:00:00",
    source := none, linked_count := none }

/-- A memo whose `updated_at` does not parse under `%Y-%m-%d %H:%M:%S`. -/
def mBadTs : Memo :=
  { slug := some "b", content := some "x", files := none, tags := none,
    pin := none, created_at := none, updated_at := some "not-a-timestamp",
    source := none, linked_count := none }

/-- A concrete timestamp parser: knows only the one well-formed stamp. -/
def pEpoch : String → Option Int :=
  fun s => if s = "2024-01-01 00:00:00" then some 1704067200 else none

/-- A source returning one page `[mA]` at cursor `"0"` and nothing after. -/
def gOnePage : String → List Memo :=
  fun c => if c = "0" then [mA] else []

/-- A source whose first page ends in the malformed-timestamp memo. -/
def gBadPage : String → List Memo :=
  fun c => if c = "0" then [mBadTs] else []

/-- A destination index mapping only slug `"a"`. -/
def mapA : String → Option String :=
  fun s => if s = "a" then some "p1" else none

example :
    safe_md_and_text id id
      { slug := none, content := none,
        files := some [.dict (some "image") (some "u1"), .nondict,
                       .dict (some "image") (some ""), .dict none (some "u2"),
                       .dict (some "image") (some "u3")],
        tags := none, pin := none, created_at := none, updated_at := none,
        source := none, linked_count := none } =
      .ok ("u1\nu3", "u1\nu3") := by rfl

example :
    safe_md_and_text (fun s => s ++ "!") (fun s => s ++ "?")
      { slug := none, content := some "<p>hi</p>", files := none,
        tags := none, pin := none, created_at := none, updated_at := none,
        source := none, linked_count := none } =
      .ok ("<p>hi</p>!", "<p>hi</p>?") := by rfl

/-- Reduction of an `Except` bind on a success value. -/
theorem bindOk {α β : Type} (x : α) (f : α → Except PyErr β) :
    (Except.ok x >>= f : Except PyErr β) = f x := rfl

/-- The `Except` form of the normalizer always succeeds, with exactly the
value of the total form: the guard `if not content_html` keeps the
raising converters away from `None`. Shared by several proofs below. -/
theorem safe_md_and_text_total (mdF htF : String → String) (memo : Memo) :
    safe_md_and_text mdF htF memo = Except.ok (safeMdText mdF htF memo) := by
  unfold safe_md_and_text safeMdText
  cases h : memo.content with
  | none => rfl
  | some s =>
      by_cases hs : s = ""
      · subst hs
        rfl
      · simp [pyTruthyStr, hs, convertPy, bindOk]

/-- The normalizer always succeeds; shared by several proofs below. -/
theorem safe_ok (mdF htF : String → String) (memo : Memo) :
    ∃ pr, safe_md_and_text mdF htF memo = Except.ok pr :=
  ⟨safeMdText mdF htF memo, safe_md_and_text_total mdF htF memo⟩

/-- C9: the content normalizer never raises: for every memo dict —
in particular when the content key is missing, `None` or empty, and when
the files key is missing, `None` or contains non-dict entries —
`_safe_md_and_text` returns a pair of strings. -/
theorem safe_md_and_text_never_raises (mdF htF : String → String) (memo : Memo) :
    ∃ pr : String × String, safe_md_and_text mdF htF memo = Except.ok pr :=
  safe_ok mdF htF memo

/-- C4: for every memo whose content is absent, `None` or empty, the
normalizer returns, for both the markdown body and the plain-text
excerpt, the newline-join of the urls of the file entries whose type is
`"image"` and whose url is non-empty, in original order; and when no
qualifying image entry exists that join is the empty string. -/
theorem safe_md_and_text_fallback (mdF htF : String → String) (memo : Memo)
    (h : pyTruthyStr memo.content = false) :
    safe_md_and_text mdF htF memo =
      Except.ok (String.intercalate "\n" (imgUrls (memo.files.getD [])),
                 String.intercalate "\n" (imgUrls (memo.files.getD []))) ∧
    (imgUrls (memo.files.getD []) = [] →
      String.intercalate "\n" (imgUrls (memo.files.getD [])) = "") := by
  refine ⟨?_, fun h2 => by rw [h2]; rfl⟩
  unfold safe_md_and_text
  simp only [h, Bool.false_eq_true, if_false]
  cases hu : imgUrls (memo.files.getD []) with
  | nil => rfl
  | cons a l => rfl

/-- Witness for C4 at the concrete memo `mImgs`. -/
theorem safe_md_and_text_fallback_witness :
    pyTruthyStr mImgs.content = false ∧
    (safe_md_and_text id id mImgs =
        Except.ok (String.intercalate "\n" (imgUrls (mImgs.files.getD [])),
                   String.intercalate "\n" (imgUrls (mImgs.files.getD []))) ∧
     (imgUrls (mImgs.files.getD []) = [] →
        String.intercalate "\n" (imgUrls (mImgs.files.getD [])) = "")) :=
  ⟨rfl, safe_md_and_text_fallback id id mImgs rfl⟩

/-- C5: the update path writes exactly the title, updated-timestamp,
linked-count, tags and pin-state properties — not the slug and not the
created-timestamp — and issues, in order: the property update, then the
content clear, then the markdown upload, all on the same record. -/
theorem update_memo_frame (mdF htF : String → String) (cap : Nat) (memo : Memo)
    (page_id : String) :
    ∃ props md,
      update_memo mdF htF cap memo page_id =
        [Op.updateProps page_id props, Op.clearContent page_id,
         Op.uploadContent page_id md] ∧
      props.map Prod.fst = ["标题", "更新时间", "链接数量", "标签", "是否置顶"] ∧
      "slug" ∉ props.map Prod.fst ∧ "创建时间" ∉ props.map Prod.fst := by
  refine ⟨[("标题", .title (truncate_string cap (safeMdText mdF htF memo).2)),
           ("更新时间", .date (memo.updated_at.getD "")),
           ("链接数量", .number (memo.linked_count.getD 0)),
           ("标签", .multiSelect (memo.tags.getD [])),
           ("是否置顶", .select (if memo.pin.getD 0 = 0 then "否" else "是"))],
          (safeMdText mdF htF memo).1, rfl, rfl, ?_, ?_⟩
  · simp
  · simp

/-- C6: with full-update mode on, every memo whose slug is found in the
destination index is updated — the skip branch is never taken,
whatever its `updated_at` (the staleness test is not even consulted). -/
theorem full_update_no_skip (mdF htF : String → String) (cap : Nat)
    (p : String → Option Int) (now : Int) (interval_day : Int)
    (slug_map : String → Option String) (memo : Memo) (newId page_id : String)
    (h : slugLookup slug_map memo.slug = some page_id) :
    syncMemoOps mdF htF cap p now true interval_day slug_map memo newId =
      update_memo mdF htF cap memo page_id := by
  unfold syncMemoOps
  rw [h]
  simp

/-- Witness for C6 at a memo indexed under slug `"a"`. -/
theorem full_update_no_skip_witness :
    slugLookup mapA mA.slug = some "p1" ∧
    syncMemoOps id id 64 pEpoch 0 true 7 mapA mA "new0" =
      update_memo id id 64 mA "p1" :=
  ⟨rfl, full_update_no_skip id id 64 pEpoch 0 7 mapA mA "new0" "p1" rfl⟩

/-- C10: a memo whose slug key is absent always takes the create path —
whatever the index holds, since the index never maps a missing value —
and the created record's slug property is the empty string, so the memo
is created anew on every run it appears in. -/
theorem missing_slug_always_insert (mdF htF : String → String) (cap : Nat)
    (p : String → Option Int) (now : Int) (fu : Bool) (interval_day : Int)
    (slug_map : String → Option String) (memo : Memo) (newId : String)
    (h : memo.slug = none) :
    ∃ props md,
      syncMemoOps mdF htF cap p now fu interval_day slug_map memo newId =
        [Op.createPage newId props, Op.uploadContent newId md] ∧
      props.lookup "slug" = some (PropValue.richText "") := by
  refine ⟨[("标题", .title (truncate_string cap (safeMdText mdF htF memo).2)),
           ("标签", .multiSelect (memo.tags.getD [])),
           ("是否置顶", .select (if memo.pin.getD 0 = 0 then "否" else "是")),
           ("slug", .richText (memo.slug.getD "")),
           ("创建时间", .date (memo.created_at.getD "")),
           ("更新时间", .date (memo.updated_at.getD "")),
           ("来源", .select (memo.source.getD "")),
           ("链接数量", .number (memo.linked_count.getD 0))],
          (safeMdText mdF htF memo).1, ?_, ?_⟩
  · have hlk : slugLookup slug_map memo.slug = none := by rw [h]; rfl
    unfold syncMemoOps
    rw [hlk]
    rfl
  · rw [h]
    rfl

/-- Witness for C10 at the memo `mNoSlug`, against an index that does
hold other slugs. -/
theorem missing_slug_always_insert_witness :
    mNoSlug.slug = none ∧
    ∃ props md,
      syncMemoOps id id 64 pEpoch 0 false 7 mapA mNoSlug "new0" =
        [Op.createPage "new0" props, Op.uploadContent "new0" md] ∧
      props.lookup "slug" = some (PropValue.richText "") :=
  ⟨rfl, missing_slug_always_insert id id 64 pEpoch 0 false 7 mapA mNoSlug "new0" rfl⟩

/-- The slug index, characterized over any initial accumulator: a lookup
returns the handle of the last record whose extracted slug is the given
non-empty key, and falls back to the accumulator when no record
matches. -/
theorem buildSlugMap_foldl (k : String) :
    ∀ (recs : List NRecord) (m0 : String → Option String),
      (recs.foldl slugStep m0) k =
        match (recs.filter (slugKeyIs k)).getLast? with
        | some r => some r.id
        | none => m0 k := by
  intro recs
  induction recs using List.reverseRecOn with
  | nil => intro m0; rfl
  | append_singleton rs r ih =>
      intro m0
      rw [List.foldl_append, List.foldl_cons, List.foldl_nil, List.filter_append]
      by_cases hp : slugKeyIs k r = true
      · obtain ⟨h1, h2⟩ : r.slug = some k ∧ k ≠ "" := by
          simpa [slugKeyIs] using hp
        rw [List.filter_cons_of_pos hp, List.filter_nil, List.getLast?_concat]
        unfold slugStep
        rw [h1]
        simp [h2]
      · rw [List.filter_cons_of_neg hp, List.filter_nil, List.append_nil]
        have hstep : slugStep (rs.foldl slugStep m0) r k = (rs.foldl slugStep m0) k := by
          unfold slugStep
          cases hs : r.slug with
          | none => rfl
          | some kk =>
              by_cases hkk : kk = ""
              · simp [hkk]
              · have hne : k ≠ kk := by
                  intro hk
                  exact hp (by simp [slugKeyIs, hs, hk, hkk])
                simp [hkk, hne]
        rw [hstep, ih m0]

/-- C7: the index built from the destination records omits every record
whose extracted slug is empty or missing, and maps each non-empty slug
to the handle of the last record carrying it in scan order. -/
theorem buildSlugMap_spec (recs : List NRecord) (k : String) :
    buildSlugMap recs k =
      ((recs.filter (slugKeyIs k)).getLast?).map NRecord.id := by
  rw [buildSlugMap, buildSlugMap_foldl k recs (fun _ => none)]
  cases (recs.filter (slugKeyIs k)).getLast? with
  | none => rfl
  | some r => rfl

/-- Soundness of the pagination loop, over any starting cursor: a
successful finite run is exactly a cursor chain of non-empty pages that
ends at a cursor whose page is empty. -/
theorem fetchTrace_sound (g : String → List Memo) (p : String → Option Int) :
    ∀ (fuel : Nat) (c : String) (tr : List (String × List Memo)) (cfin : String),
      fetchTrace g p fuel c = some (Except.ok (tr, cfin)) →
      chainOk g p c tr cfin = true ∧ g cfin = [] := by
  intro fuel
  induction fuel with
  | zero =>
      intro c tr cfin h
      exact absurd h (by simp [fetchTrace])
  | succ n ih =>
      intro c tr cfin h
      unfold fetchTrace at h
      cases hpg : (g c).getLast? with
      | none =>
          simp only [hpg, Option.some.injEq, Except.ok.injEq, Prod.mk.injEq] at h
          obtain ⟨h1, h2⟩ := h
          subst h1
          subst h2
          refine ⟨by simp [chainOk], ?_⟩
          exact List.getLast?_eq_none_iff.mp hpg
      | some lastMemo =>
          simp only [hpg] at h
          cases hup : lastMemo.updated_at with
          | none => simp only [hup] at h; simp at h
          | some ts =>
              simp only [hup] at h
              cases hts : p ts with
              | none => simp only [hts] at h; simp at h
              | some t =>
                  simp only [hts] at h
                  simp only [Option.map_eq_some'] at h
                  obtain ⟨e, he, hmap⟩ := h
                  cases e with
                  | error err => simp [Except.map] at hmap
                  | ok pr =>
                      simp only [Except.map, Except.ok.injEq, Prod.mk.injEq] at hmap
                      obtain ⟨hmap1, hmap2⟩ := hmap
                      obtain ⟨hchain, hempty⟩ := ih (toString t) pr.1 pr.2 (by
                        rw [he])
                      subst hmap2
                      rw [← hmap1]
                      refine ⟨?_, hempty⟩
                      unfold chainOk
                      simp only [hpg, hup, hts]
                      have hne : (g c).isEmpty = false := by
                        cases hgc : g c with
                        | nil => rw [hgc] at hpg; simp at hpg
                        | cons a l => rfl
                      simp [hne, hchain]

/-- C3: starting from the cursor `"0"`, the pagination loop follows the
cursor chain — each non-empty page advances the cursor to the decimal
epoch-seconds conversion of the last memo's `updated_at` — terminates
exactly on an empty page, and accumulates the concatenation of the
pages in fetch order. -/
theorem pagination_spec (g : String → List Memo) (p : String → Option Int)
    (fuel : Nat) (tr : List (String × List Memo)) (cfin : String)
    (h : fetchTrace g p fuel "0" = some (Except.ok (tr, cfin))) :
    chainOk g p "0" tr cfin = true ∧ g cfin = [] ∧
    fetchAllMemos g p fuel = some (Except.ok (tr.map Prod.snd).flatten) := by
  obtain ⟨h1, h2⟩ := fetchTrace_sound g p fuel "0" tr cfin h
  refine ⟨h1, h2, ?_⟩
  rw [fetchAllMemos, h]
  rfl

/-- Witness for C3 on a source with one non-empty page. -/
theorem pagination_spec_witness :
    fetchTrace gOnePage pEpoch 2 "0" =
      some (Except.ok ([("0", [mA])], "1704067200")) ∧
    (chainOk gOnePage pEpoch "0" [("0", [mA])] "1704067200" = true ∧
     gOnePage "1704067200" = [] ∧
     fetchAllMemos gOnePage pEpoch 2 =
       some (Except.ok ([("0", [mA])].map Prod.snd).flatten)) :=
  ⟨rfl, pagination_spec gOnePage pEpoch 2 [("0", [mA])] "1704067200" rfl⟩

/-- C8: when the last memo of a fetched page carries an `updated_at`
that the timestamp parser rejects, the run fails with the propagated
parse error instead of skipping the memo or continuing pagination. -/
theorem pagination_bad_timestamp (g : String → List Memo)
    (p : String → Option Int) (fuel : Nat) (c : String)
    (lastMemo : Memo) (ts : String)
    (h1 : (g c).getLast? = some lastMemo)
    (h2 : lastMemo.updated_at = some ts)
    (h3 : p ts = none) :
    fetchTrace g p (fuel + 1) c = some (Except.error PyErr.valueError) := by
  unfold fetchTrace
  simp only [h1, h2, h3]

/-- One loop iteration issues at most one create, and only with the
identifier `memo.get("slug", "")` of its own memo. -/
theorem countCreates_syncMemoOps_le (mdF htF : String → String) (cap : Nat)
    (p : String → Option Int) (now : Int) (fu : Bool) (interval_day : Int)
    (slug_map : String → Option String) (m : Memo) (nid : String) (s : String) :
    countCreates s (syncMemoOps mdF htF cap p now fu interval_day slug_map m nid) ≤
      if m.slug.getD "" == s then 1 else 0 := by
  unfold syncMemoOps
  cases hl : slugLookup slug_map m.slug with
  | some pid =>
      show countCreates s
          (if (!fu && !is_within_n_days p now (m.updated_at.getD "") interval_day) = true
           then [] else update_memo mdF htF cap m pid) ≤ _
      by_cases hw :
          (!fu && !is_within_n_days p now (m.updated_at.getD "") interval_day) = true
      · rw [if_pos hw]
        exact Nat.zero_le _
      · rw [if_neg hw]
        have hzero : countCreates s (update_memo mdF htF cap m pid) = 0 := rfl
        rw [hzero]
        exact Nat.zero_le _
  | none =>
      have hcond : countCreates s (insert_memo mdF htF cap m nid) =
          cond (m.slug.getD "" == s) 1 0 := rfl
      rw [hcond, Bool.cond_eq_ite]

/-- The creates of a whole run, counted per identifier, are bounded by
the occurrences of that identifier among the processed memos. -/
theorem countCreates_syncLoop_le (mdF htF : String → String) (cap : Nat)
    (p : String → Option Int) (now : Int) (fu : Bool) (interval_day : Int)
    (slug_map : String → Option String) :
    ∀ (memos : List Memo) (n : Nat) (s : String),
      countCreates s (syncLoop mdF htF cap p now fu interval_day slug_map memos n) ≤
        memos.countP (fun m => m.slug.getD "" == s) := by
  intro memos
  induction memos with
  | nil => intro n s; exact Nat.le_refl 0
  | cons m rest ih =>
      intro n s
      rw [syncLoop]
      unfold countCreates
      rw [List.countP_append, List.countP_cons]
      have hm := countCreates_syncMemoOps_le mdF htF cap p now fu interval_day
        slug_map m (freshId n) s
      have hr := ih (n + 1) s
      unfold countCreates at hm hr
      exact Nat.le_trans (Nat.add_le_add hm hr) (Nat.le_of_eq (Nat.add_comm _ _))

/-- C1 counterexample: the slug index is consulted but never extended
during a run, so a list containing the same memo twice — its slug `"a"`
absent from the (empty) destination index — issues two creates for the
one identifier, not at most one. -/
theorem create_twice_on_duplicate_slugs :
    countCreates "a"
      (syncLoop id id 64 pEpoch 1704067200 false 7 (buildSlugMap []) [mA, mA] 0) = 2 := by
  rfl

/-- C1 (amended): at most one create per identifier holds provided the
processed memo list carries pairwise distinct identifiers (the values
of `memo.get("slug", "")`); the index-before-create check alone does not
enforce it within a run. -/
theorem create_at_most_once_of_nodup (mdF htF : String → String) (cap : Nat)
    (p : String → Option Int) (now : Int) (fu : Bool) (interval_day : Int)
    (slug_map : String → Option String) (memos : List Memo) (s : String)
    (h : (memos.map fun m => m.slug.getD "").Nodup) :
    countCreates s (syncLoop mdF htF cap p now fu interval_day slug_map memos 0) ≤ 1 := by
  have hle := countCreates_syncLoop_le mdF htF cap p now fu interval_day
    slug_map memos 0 s
  have hcount :
      memos.countP (fun m => m.slug.getD "" == s) =
        (memos.map fun m => m.slug.getD "").count s := by
    rw [List.count_eq_countP, List.countP_map]
    rfl
  have hone : (memos.map fun m => m.slug.getD "").count s ≤ 1 :=
    List.nodup_iff_count_le_one.mp h s
  rw [hcount] at hle
  exact Nat.le_trans hle hone

/-- Witness for C1 (amended) on a single-memo run. -/
theorem create_at_most_once_of_nodup_witness :
    ([mA].map fun m => m.slug.getD "").Nodup ∧
    countCreates "a"
      (syncLoop id id 64 pEpoch 1704067200 false 7 (buildSlugMap []) [mA] 0) ≤ 1 :=
  ⟨by simp, create_at_most_once_of_nodup id id 64 pEpoch 1704067200 false 7
    (buildSlugMap []) [mA] "a" (by simp)⟩

/-- `createdRecords` distributes over concatenated traces. -/
theorem createdRecords_append (a b : List Op) :
    createdRecords (a ++ b) = createdRecords a ++ createdRecords b := by
  rw [createdRecords, createdRecords, createdRecords, List.filterMap_append]

/-- Every memo the run does not find in the index leaves behind a
created record carrying the memo's identifier. -/
theorem created_slug_mem (mdF htF : String → String) (cap : Nat)
    (p : String → Option Int) (now : Int) (fu : Bool) (interval_day : Int)
    (slug_map : String → Option String) :
    ∀ (memos : List Memo) (n : Nat) (m : Memo),
      m ∈ memos → slugLookup slug_map m.slug = none →
      ∃ r ∈ createdRecords
          (syncLoop mdF htF cap p now fu interval_day slug_map memos n),
        r.slug = some (m.slug.getD "") := by
  intro memos
  induction memos with
  | nil => intro n m hm; cases hm
  | cons m0 rest ih =>
      intro n m hm hlk
      rw [syncLoop, createdRecords_append]
      rcases List.mem_cons.mp hm with heq | hm2
      · subst heq
        refine ⟨⟨freshId n, some (m.slug.getD "")⟩, ?_, rfl⟩
        apply List.mem_append_left
        have harm : syncMemoOps mdF htF cap p now fu interval_day slug_map m
            (freshId n) = insert_memo mdF htF cap m (freshId n) := by
          unfold syncMemoOps
          rw [hlk]
        rw [harm]
        have hins : createdRecords (insert_memo mdF htF cap m (freshId n)) =
            [⟨freshId n, some (m.slug.getD "")⟩] := rfl
        rw [hins]
        exact List.mem_singleton.mpr rfl
      · obtain ⟨r, hr, hrs⟩ := ih (n + 1) m hm2 hlk
        exact ⟨r, List.mem_append_right _ hr, hrs⟩

/-- The index holds a key exactly when some scanned record carries it as
its non-empty extracted slug. -/
theorem buildSlugMap_isSome_iff (recs : List NRecord) (k : String) :
    (buildSlugMap recs k).isSome = true ↔ ∃ r ∈ recs, slugKeyIs k r = true := by
  rw [buildSlugMap, buildSlugMap_foldl k recs (fun _ => none)]
  cases hl : (recs.filter (slugKeyIs k)).getLast? with
  | none =>
      simp only [Option.isSome_none]
      constructor
      · intro hfalse; cases hfalse
      · rintro ⟨r, hr, hkey⟩
        have hmem : r ∈ recs.filter (slugKeyIs k) := List.mem_filter.mpr ⟨hr, hkey⟩
        rw [List.getLast?_eq_none_iff.mp hl] at hmem
        cases hmem
  | some r =>
      simp only [Option.isSome_some, true_iff]
      have hmem : r ∈ recs.filter (slugKeyIs k) := List.mem_of_getLast?_eq_some hl
      exact ⟨r, (List.mem_filter.mp hmem).1, (List.mem_filter.mp hmem).2⟩

/-- When every memo is found in the index and none passes the staleness
test, the run with full-update off issues no operation at all. -/
theorem syncLoop_all_skip (mdF htF : String → String) (cap : Nat)
    (p : String → Option Int) (now : Int) (interval_day : Int)
    (slug_map : String → Option String) :
    ∀ (memos : List Memo) (n : Nat),
      (∀ m ∈ memos, (slugLookup slug_map m.slug).isSome = true) →
      (∀ m ∈ memos,
        is_within_n_days p now (m.updated_at.getD "") interval_day = false) →
      syncLoop mdF htF cap p now false interval_day slug_map memos n = [] := by
  intro memos
  induction memos with
  | nil => intro n hfound hstale; rfl
  | cons m rest ih =>
      intro n hfound hstale
      rw [syncLoop]
      have hmem : m ∈ m :: rest := List.mem_cons_self m rest
      obtain ⟨pid, hpid⟩ :=
        Option.isSome_iff_exists.mp (hfound m hmem)
      have harm : syncMemoOps mdF htF cap p now false interval_day slug_map m
          (freshId n) = [] := by
        unfold syncMemoOps
        rw [hpid, hstale m hmem]
        rfl
      rw [harm, List.nil_append]
      exact ih (n + 1) (fun x hx => hfound x (List.mem_cons_of_mem m hx))
        (fun x hx => hstale x (List.mem_cons_of_mem m hx))

/-- C2 counterexample: re-running over an unchanged source is not
write-free. `mA` is created on the first run; on the second run it is
found in the index, but its `updated_at` lies within the freshness
window (`now` equals its timestamp), so the memo is re-updated: the
second run issues three writes (property update, content clear, content
upload), not zero. -/
theorem second_run_writes_counterexample :
    (twoRunSecondOps id id 64 pEpoch 1704067200 false 7 [] [mA]).length = 3 := by
  rfl

/-- C2 (amended): the second of two identical runs with full-update off
issues zero writes provided every memo has a present, non-empty slug
and falls outside the freshness window; a memo within the window is
re-updated, and a memo without a slug is re-created. -/
theorem second_run_no_writes (mdF htF : String → String) (cap : Nat)
    (p : String → Option Int) (now : Int) (interval_day : Int)
    (dest : List NRecord) (memos : List Memo)
    (hslug : ∀ m ∈ memos, ∃ s, m.slug = some s ∧ s ≠ "")
    (hstale : ∀ m ∈ memos,
      is_within_n_days p now (m.updated_at.getD "") interval_day = false) :
    twoRunSecondOps mdF htF cap p now false interval_day dest memos = [] := by
  show syncLoop mdF htF cap p now false interval_day
      (buildSlugMap (dest ++ createdRecords
        (syncLoop mdF htF cap p now false interval_day
          (buildSlugMap dest) memos 0))) memos 0 = []
  apply syncLoop_all_skip
  · intro m hm
    obtain ⟨s, hs, hsne⟩ := hslug m hm
    rw [hs]
    show (buildSlugMap (dest ++ createdRecords
        (syncLoop mdF htF cap p now false interval_day
          (buildSlugMap dest) memos 0)) s).isSome = true
    rw [buildSlugMap_isSome_iff]
    by_cases hidx : (buildSlugMap dest s).isSome = true
    · obtain ⟨r, hr, hk⟩ := (buildSlugMap_isSome_iff dest s).mp hidx
      exact ⟨r, List.mem_append_left _ hr, hk⟩
    · have hlk : slugLookup (buildSlugMap dest) m.slug = none := by
        rw [hs]
        show buildSlugMap dest s = none
        cases h2 : buildSlugMap dest s with
        | none => rfl
        | some v => rw [h2] at hidx; exact absurd rfl hidx
      obtain ⟨r, hr, hrs⟩ := created_slug_mem mdF htF cap p now false
        interval_day (buildSlugMap dest) memos 0 m hm hlk
      refine ⟨r, List.mem_append_right _ hr, ?_⟩
      rw [hs] at hrs
      show (decide (r.slug = some s) && decide (s ≠ "")) = true
      rw [hrs]
      simp [hsne]
  · exact hstale

/-- Witness for C2 (amended): one slugged memo, a parser that rejects
every timestamp (so nothing is within the window) — the second run
issues no write. -/
theorem second_run_no_writes_witness :
    (∀ m ∈ [mA], ∃ s, m.slug = some s ∧ s ≠ "") ∧
    (∀ m ∈ [mA],
      is_within_n_days (fun _ => none) 0 (m.updated_at.getD "") 7 = false) ∧
    twoRunSecondOps id id 64 (fun _ => none) 0 false 7 [] [mA] = [] := by
  have h1 : ∀ m ∈ [mA], ∃ s, m.slug = some s ∧ s ≠ "" := by
    intro m hm
    rw [List.mem_singleton] at hm
    subst hm
    exact ⟨"a", rfl, by decide⟩
  have h2 : ∀ m ∈ [mA],
      is_within_n_days (fun _ => none) 0 (m.updated_at.getD "") 7 = false := by
    intro m hm
    rfl
  exact ⟨h1, h2, second_run_no_writes id id 64 (fun _ => none) 0 7 [] [mA] h1 h2⟩

/-- Witness for C8 on a page ending in the malformed-timestamp memo. -/
theorem pagination_bad_timestamp_witness :
    (gBadPage "0").getLast? = some mBadTs ∧
    mBadTs.updated_at = some "not-a-timestamp" ∧
    pEpoch "not-a-timestamp" = none ∧
    fetchTrace gBadPage pEpoch 1 "0" = some (Except.error PyErr.valueError) :=
  ⟨rfl, rfl, rfl,
   pagination_bad_timestamp gBadPage pEpoch 0 "0" mBadTs "not-a-timestamp"
     rfl rfl rfl⟩

end Flomo2Notion
